import Mathlib

/-!
Shallow embedding of the Snapp Express Basket Helper content script
(`src/contentScript.js`): the search-context merge and readiness gate, the
`searchProduct` guard, the vendor-intersection engine
`findVendorsWithAllProducts`, and the `FIND_STORES_FOR_LIST` message
handler.

JavaScript `Map` objects are modelled as insertion-ordered association
lists (`jget`/`jset`), matching `Map.set` semantics: update in place on an
existing key, append on a fresh key.  Nullable JS values are `Option`;
`none` stands for null/undefined/absent.  The network is supplied as an
oracle `search : String → Except QueryError ApiResponse` standing for one
`searchProduct` call (guard plus transport) per product name; one engine
invocation sees a fixed oracle, i.e. a deterministic set of responses.
-/

namespace SnappBasket

/-- Association-list lookup, first match (JS `Map.get`). -/
def jget {κ β : Type} [DecidableEq κ] (k : κ) : List (κ × β) → Option β
  | [] => none
  | (k', v) :: rest => if k' = k then some v else jget k rest

/-- JS `Map.set`: update in place on an existing key, append on a fresh key. -/
def jset {κ β : Type} [DecidableEq κ] (k : κ) (v : β) : List (κ × β) → List (κ × β)
  | [] => [(k, v)]
  | (k', v') :: rest => if k' = k then (k, v) :: rest else (k', v') :: jset k v rest

/-- A matched product object inside a vendor entry; its payload is opaque to
the engine, only identity matters here. -/
structure Product where
  pid : Nat
  deriving DecidableEq, Repr

/-- One vendor entry of a single query response
(`data.vendor_product_variations.items[i]`). -/
structure VendorRec where
  id : Nat
  code : Option String
  title : Option String
  address : Option String
  rating : Option Int
  deliveryFee : Option Int
  deliveryTime : Option Int
  featured : Option String
  products : Option (List Product)
  deriving DecidableEq, Repr

/-- `data.vendor_product_variations` of an API response. -/
structure VariationsBlock where
  items : Option (List VendorRec)
  deriving DecidableEq, Repr

/-- `data` of an API response. -/
structure ResponseData where
  vendor_product_variations : Option VariationsBlock
  deriving DecidableEq, Repr

/-- The JSON body returned by the search endpoint. -/
structure ApiResponse where
  data : Option ResponseData
  deriving DecidableEq, Repr

/-- `extractVendors`: `apiResponse?.data?.vendor_product_variations?.items || []`. -/
def extractVendors (apiResponse : ApiResponse) : List VendorRec :=
  ((apiResponse.data.bind (·.vendor_product_variations)).bind (·.items)).getD []

/-- The error kinds one `searchProduct` call can surface: the synchronous
context guard, or a transport/HTTP failure. -/
inductive QueryError where
  | contextNotInitialized
  | transport (status : Nat)
  deriving DecidableEq, Repr

/-- The network oracle: the outcome of the (deterministic) response set for
each product name queried in one engine invocation. -/
abbrev Search : Type := String → Except QueryError ApiResponse

/-- The engine-level failure: `throw new Error('Failed to search for: ...')`,
carrying the failed product names (the spec's PartialSearchFailure). -/
inductive EngineError where
  | searchFailure (failedProducts : List String)
  deriving DecidableEq, Repr

/-- `vendor.products && vendor.products.length > 0 ? vendor.products[0] : null`. -/
def firstMatchedProduct (v : VendorRec) : Option Product :=
  match v.products with
  | some (p :: _) => some p
  | _ => none

/-- One value of `vendorMap`: `{ vendor, products: Map<productName, productObject> }`. -/
structure AggEntry where
  vendor : VendorRec
  slots : List (String × Option Product)
  deriving DecidableEq, Repr

/-- `vendorMap : Map<vendorId, AggEntry>`. -/
abbrev VendorMap : Type := List (Nat × AggEntry)

/-- Body of `vendors.forEach` in `findVendorsWithAllProducts`: create the
entry if the vendor id is unseen, then set this query's product slot. -/
def addVendor (productName : String) (m : VendorMap) (v : VendorRec) : VendorMap :=
  match jget v.id m with
  | some e =>
      jset v.id { e with slots := jset productName (firstMatchedProduct v) e.slots } m
  | none =>
      jset v.id { vendor := v, slots := jset productName (firstMatchedProduct v) [] } m

/-- Fold one whole query response into the vendor map. -/
def addQuery (m : VendorMap) (productName : String) (vs : List VendorRec) : VendorMap :=
  vs.foldl (addVendor productName) m

/-- The vendor list a successful query contributes; a failed query is caught
and contributes nothing. -/
def okVendors (search : Search) (n : String) : List VendorRec :=
  match search n with
  | .ok r => extractVendors r
  | .error _ => []

/-- The fully folded `vendorMap` after all fan-out promises settle. -/
def aggregate (search : Search) (productNames : List String) : VendorMap :=
  productNames.foldl (fun m n => addQuery m n (okVendors search n)) []

/-- One entry of a `matchedProducts` list: `{ name, product }`. -/
structure MatchedEntry where
  name : String
  product : Option Product
  deriving DecidableEq, Repr

/-- One row pushed onto `matchingVendors`. -/
structure ResultVendor where
  vendorId : Nat
  code : Option String
  title : String
  address : String
  rating : Option Int
  deliveryFee : Option Int
  deliveryTime : Option Int
  featured : Option String
  matchedProducts : List MatchedEntry
  deriving DecidableEq, Repr

/-- JS `x || null` on a nullable number: 0 is falsy and collapses to null. -/
def numOrNull (o : Option Int) : Option Int :=
  match o with
  | some v => if v = 0 then none else some v
  | none => none

/-- JS `x || d` on a nullable string: null/undefined and "" fall back to `d`. -/
def strOrDefault (o : Option String) (d : String) : String :=
  match o with
  | some s => if s = "" then d else s
  | none => d

/-- JS `x || null` on a nullable string: "" is falsy and collapses to null. -/
def strOrNull (o : Option String) : Option String :=
  match o with
  | some s => if s = "" then none else some s
  | none => none

/-- The row built for one selected vendor (`matchingVendors.push` argument);
`matchedProducts` re-walks the original ordered product-name list. -/
def mkResultVendor (productNames : List String) (e : AggEntry) : ResultVendor :=
  { vendorId := e.vendor.id
    code := strOrNull e.vendor.code
    title := strOrDefault e.vendor.title "فروشگاه نامشخص"
    address := strOrDefault e.vendor.address "آدرس در دسترس نیست"
    rating := numOrNull e.vendor.rating
    deliveryFee := numOrNull e.vendor.deliveryFee
    deliveryTime := numOrNull e.vendor.deliveryTime
    featured := strOrNull e.vendor.featured
    matchedProducts := productNames.map (fun n => { name := n, product := (jget n e.slots).join }) }

/-- `matchingVendors` in aggregation-discovery order, before sorting: the
vendors whose per-name slot count equals `productNames.length`. -/
def resultRows (search : Search) (productNames : List String) : List ResultVendor :=
  ((aggregate search productNames).filter
      (fun p => p.2.slots.length == productNames.length)).map
    (fun p => mkResultVendor productNames p.2)

/-- The sort comparator's induced order: `(a ?? Infinity) ≤ (b ?? Infinity)`
with `none` playing Infinity. -/
def feeLe : Option Int → Option Int → Bool
  | _, none => true
  | none, some _ => false
  | some x, some y => decide (x ≤ y)

/-- The comparator order lifted to rows. -/
def feeRel (a b : ResultVendor) : Prop := feeLe a.deliveryFee b.deliveryFee = true

instance : DecidableRel feeRel := fun _ _ => decEq _ _

/-- `matchingVendors.sort((a, b) => (a.deliveryFee ?? Infinity) - (b.deliveryFee ?? Infinity))`:
JS `Array.prototype.sort` is stable and this comparator is consistent with
the total preorder `feeLe` (a NaN comparator value, arising for two
Infinity keys, is treated as 0 by the ECMAScript sort), so its result is
the unique stable sort, computed here by insertion sort. -/
def sortVendors (l : List ResultVendor) : List ResultVendor :=
  l.insertionSort feeRel

/-- `findVendorsWithAllProducts`, with the network abstracted by `search`:
empty input short-circuits to `[]`; if any query failed, throw the failure
naming every failed product name; otherwise select vendors covering all
slots, build rows in caller order, and sort by delivery fee. -/
def findVendorsWithAllProducts (search : Search) (productNames : List String) :
    Except EngineError (List ResultVendor) :=
  if productNames.length = 0 then .ok []
  else
    let failed := productNames.filter (fun n => !(search n).isOk)
    if failed.isEmpty then .ok (sortVendors (resultRows search productNames))
    else .error (.searchFailure failed)

/-- `dynamicSearchContext`: nullable captured parameters (all captured from
URL query strings, hence strings). -/
structure SearchContextState where
  lat : Option String
  long : Option String
  pro_discount : Option String
  pro_client : Option String
  client : Option String
  deviceType : Option String
  appVersion : Option String
  UDID : Option String
  deriving DecidableEq, Repr

/-- The context at content-script load: every field null. -/
def initialSearchContext : SearchContextState :=
  { lat := none, long := none, pro_discount := none, pro_client := none,
    client := none, deviceType := none, appVersion := none, UDID := none }

/-- `isSearchContextInitialized`: lat, long and UDID are all non-null. -/
def isSearchContextInitialized (c : SearchContextState) : Bool :=
  c.lat.isSome && c.long.isSome && c.UDID.isSome

/-- One `SEARCH_CONTEXT` message payload; `none` models a null field. -/
structure CapturePayload where
  lat : Option String
  long : Option String
  pro_discount : Option String
  pro_client : Option String
  client : Option String
  deviceType : Option String
  appVersion : Option String
  UDID : Option String
  deriving DecidableEq, Repr

/-- The `hasChanges` test of the message listener. -/
def hasChanges (c : SearchContextState) (p : CapturePayload) : Bool :=
  (p.lat.isSome && c.lat != p.lat) ||
  (p.long.isSome && c.long != p.long) ||
  (p.UDID.isSome && c.UDID != p.UDID) ||
  (p.pro_discount.isSome && c.pro_discount != p.pro_discount) ||
  (p.pro_client.isSome && c.pro_client != p.pro_client) ||
  (p.client.isSome && c.client != p.client) ||
  (p.deviceType.isSome && c.deviceType != p.deviceType) ||
  (p.appVersion.isSome && c.appVersion != p.appVersion)

/-- `x != null ? x : old` for one field of the merge. -/
def mergeField (p c : Option String) : Option String :=
  match p with
  | some v => some v
  | none => c

/-- The replacement context object built when `hasChanges` holds. -/
def mergeContext (c : SearchContextState) (p : CapturePayload) : SearchContextState :=
  { lat := mergeField p.lat c.lat
    long := mergeField p.long c.long
    pro_discount := mergeField p.pro_discount c.pro_discount
    pro_client := mergeField p.pro_client c.pro_client
    client := mergeField p.client c.client
    deviceType := mergeField p.deviceType c.deviceType
    appVersion := mergeField p.appVersion c.appVersion
    UDID := mergeField p.UDID c.UDID }

/-- The `SEARCH_CONTEXT` branch of the window message listener: reassign the
context only when some field actually changes. -/
def updateSearchContext (c : SearchContextState) (p : CapturePayload) : SearchContextState :=
  if hasChanges c p then mergeContext c p else c

/-- The context after a sequence of capture messages. -/
def applyCaptures (c : SearchContextState) (ps : List CapturePayload) : SearchContextState :=
  ps.foldl updateSearchContext c

/-- JS truthiness of a nullable string: null/undefined and "" are falsy. -/
def truthy : Option String → Bool
  | some s => !(s == "")
  | none => false

/-- JS `a || b` on nullable strings. -/
def jsOr (a b : Option String) : Option String :=
  if truthy a then a else b

/-- The parameter set of the GET request `searchProduct` issues. -/
structure SearchRequest where
  query : String
  lat : Option String
  long : Option String
  pro_client : Option String
  pro_discount : Option String
  page : Nat
  client : Option String
  deviceType : Option String
  appVersion : Option String
  UDID : Option String
  deriving DecidableEq, Repr

/-- The error `searchProduct` itself can throw before the network:
`'Search context not initialized. ...'`. -/
inductive SearchFailure where
  | contextNotInitialized
  deriving DecidableEq, Repr

/-- `searchProduct` up to the point the network request is issued: resolve
each parameter (argument `||` context), run the synchronous guard, and on
success return the request that would be fetched.  A returned `.ok` value
is exactly "a network request is attempted with these parameters". -/
def searchProduct (c : SearchContextState) (query : String)
    (lat long pro_discount : Option String) (page : Nat) :
    Except SearchFailure SearchRequest :=
  let finalLat := jsOr lat c.lat
  let finalLong := jsOr long c.long
  let finalProDiscount := jsOr pro_discount c.pro_discount
  if !truthy finalLat || !truthy finalLong || !truthy finalProDiscount then
    .error .contextNotInitialized
  else
    .ok { query := query, lat := finalLat, long := finalLong,
          pro_client := c.pro_client, pro_discount := finalProDiscount,
          page := page, client := c.client, deviceType := c.deviceType,
          appVersion := c.appVersion, UDID := c.UDID }

/-- Drop leading whitespace characters from a character list. -/
def dropWhitespace : List Char → List Char
  | [] => []
  | c :: cs => if c.isWhitespace then dropWhitespace cs else c :: cs

/-- JS `String.prototype.trim`: remove leading and trailing whitespace. -/
def jsTrim (s : String) : String :=
  ⟨(dropWhitespace ((dropWhitespace s.data).reverse)).reverse⟩

/-- The response sent back to the popup by the `FIND_STORES_FOR_LIST`
handler; each failure constructor stands for one distinct error message. -/
inductive StoreResponse where
  | ok (result : List ResultVendor)
  | invalidList
  | noValidProducts
  | notInitialized
  | engineFailed (e : EngineError)
  deriving DecidableEq, Repr

/-- The `FIND_STORES_FOR_LIST` branch of the `chrome.runtime.onMessage`
listener; `items = none` models a null / non-array `message.items`. -/
def handleFindStoresForList (c : SearchContextState) (search : Search)
    (items : Option (List String)) : StoreResponse :=
  match items with
  | none => .invalidList
  | some its =>
    if its.length = 0 then .invalidList
    else
      let validItems := its.filter (fun s => !(s == "") && decide (0 < (jsTrim s).length))
      if validItems.length = 0 then .noValidProducts
      else if !isSearchContextInitialized c then .notInitialized
      else
        match findVendorsWithAllProducts search validItems with
        | .ok vs => .ok vs
        | .error e => .engineFailed e

/-! ### Concrete fixtures used for witnesses and counterexamples -/

/-- A vendor entry with only the claim-relevant fields populated. -/
def exVendor (i : Nat) (fee : Option Int) (ps : Option (List Product)) : VendorRec :=
  { id := i, code := none, title := none, address := none, rating := none,
    deliveryFee := fee, deliveryTime := none, featured := none, products := ps }

/-- A vendor list wrapped as a full API response body. -/
def exResponse (vs : List VendorRec) : ApiResponse :=
  { data := some { vendor_product_variations := some { items := some vs } } }

/-- The spec's end-to-end scenario: milk at vendors 1 and 2, bread at
vendors 1 and 3; anything else fails with a transport error. -/
def exSearchAll : Search := fun n =>
  if n = "milk" then
    .ok (exResponse [exVendor 1 (some 5) (some [⟨10⟩]), exVendor 2 (some 3) (some [⟨20⟩])])
  else if n = "bread" then
    .ok (exResponse [exVendor 1 (some 5) (some [⟨11⟩]), exVendor 3 (some 1) (some [⟨30⟩])])
  else .error (.transport 500)

/-- Vendor 1 answers the bread query with an empty matched-products list. -/
def exSearchEmptyProducts : Search := fun n =>
  if n = "milk" then .ok (exResponse [exVendor 1 (some 5) (some [⟨10⟩])])
  else if n = "bread" then .ok (exResponse [exVendor 1 (some 5) (some [])])
  else .error (.transport 500)

/-- A single query returning fees 0, 7, null and 2 in discovery order. -/
def exSearchFees : Search := fun n =>
  if n = "a" then
    .ok (exResponse
      [exVendor 1 (some 0) (some [⟨1⟩]), exVendor 2 (some 7) (some [⟨2⟩]),
       exVendor 3 none (some [⟨3⟩]), exVendor 4 (some 2) (some [⟨4⟩])])
  else .error (.transport 500)

/-- Rows with no known delivery fee (a null raw fee, or a raw fee collapsed
by the falsy coalescing copy). -/
def isUnknownFee (v : ResultVendor) : Bool := v.deliveryFee.isNone

/-- Vendor id `i` appears in a query's vendor list. -/
def appearsIn (vs : List VendorRec) (i : Nat) : Bool := vs.any (fun v => v.id == i)

/-- Whether vendor `i`'s aggregated entry in `m` already holds a slot for
query `q` (false when the vendor has no entry at all). -/
def oldSlot (m : VendorMap) (i : Nat) (q : String) : Bool :=
  match jget i m with
  | some e => (jget q e.slots).isSome
  | none => false

/-- Structural invariant of the vendor map: its keys are distinct, each
entry's stored vendor record carries the entry's key as id, and each
entry's slot keys are distinct. -/
def MapInv (m : VendorMap) : Prop :=
  (m.map Prod.fst).Nodup ∧
  ∀ p ∈ m, p.2.vendor.id = p.1 ∧ (p.2.slots.map Prod.fst).Nodup

/-- The engine's output on `exSearchFees` and `["a"]`: ascending known fees
first, then the unknown-fee vendors in discovery order (vendor 1's raw fee
0 was collapsed to null). -/
def exFeesOut : List ResultVendor :=
  [{ vendorId := 4, code := none, title := "فروشگاه نامشخص", address := "آدرس در دسترس نیست",
     rating := none, deliveryFee := some 2, deliveryTime := none, featured := none,
     matchedProducts := [{ name := "a", product := some ⟨4⟩ }] },
   { vendorId := 2, code := none, title := "فروشگاه نامشخص", address := "آدرس در دسترس نیست",
     rating := none, deliveryFee := some 7, deliveryTime := none, featured := none,
     matchedProducts := [{ name := "a", product := some ⟨2⟩ }] },
   { vendorId := 1, code := none, title := "فروشگاه نامشخص", address := "آدرس در دسترس نیست",
     rating := none, deliveryFee := none, deliveryTime := none, featured := none,
     matchedProducts := [{ name := "a", product := some ⟨1⟩ }] },
   { vendorId := 3, code := none, title := "فروشگاه نامشخص", address := "آدرس در دسترس نیست",
     rating := none, deliveryFee := none, deliveryTime := none, featured := none,
     matchedProducts := [{ name := "a", product := some ⟨3⟩ }] }]

/-- The engine's output on `exSearchEmptyProducts` and `["milk", "bread"]`:
vendor 1 is returned although its bread query matched zero products. -/
def exEmptyProductsOut : List ResultVendor :=
  [{ vendorId := 1, code := none, title := "فروشگاه نامشخص", address := "آدرس در دسترس نیست",
     rating := none, deliveryFee := some 5, deliveryTime := none, featured := none,
     matchedProducts := [{ name := "milk", product := some ⟨10⟩ },
                         { name := "bread", product := none }] }]

/-- An aggregated vendor whose raw delivery fee and rating are both 0. -/
def exZeroRatingEntry : AggEntry :=
  { vendor := { id := 9, code := none, title := none, address := none, rating := some 0,
                deliveryFee := some 0, deliveryTime := none, featured := none,
                products := some [⟨1⟩] },
    slots := [("a", some ⟨1⟩)] }

/-- A context that is ready (lat, long, UDID non-null) but has no discount
token. -/
def exReadyNoDiscount : SearchContextState :=
  { lat := some "35.737", long := some "51.395", pro_discount := none, pro_client := none,
    client := none, deviceType := none, appVersion := none, UDID := some "3cba" }

/-- A context with everything except the UDID captured. -/
def exNoUdid : SearchContextState :=
  { lat := some "35.737", long := some "51.395", pro_discount := some "18000",
    pro_client := some "snapp", client := some "PWA", deviceType := some "PWA",
    appVersion := some "1.333.5", UDID := none }

/-- A fully captured context. -/
def exFullContext : SearchContextState :=
  { lat := some "35.737", long := some "51.395", pro_discount := some "18000",
    pro_client := some "snapp", client := some "PWA", deviceType := some "PWA",
    appVersion := some "1.333.5", UDID := some "3cba" }

/-- A capture carrying only the geolocation pair. -/
def exGeoCapture : CapturePayload :=
  { lat := some "35.0", long := some "51.0", pro_discount := none, pro_client := none,
    client := none, deviceType := none, appVersion := none, UDID := none }

/-- A capture carrying only the device identifier. -/
def exUdidCapture : CapturePayload :=
  { lat := none, long := none, pro_discount := none, pro_client := none,
    client := none, deviceType := none, appVersion := none, UDID := some "u9" }

/-! ### Generic lemmas about the association-list maps -/

section MapLemmas

variable {κ β : Type} [DecidableEq κ]

theorem jget_jset_self (k : κ) (v : β) (m : List (κ × β)) : jget k (jset k v m) = some v := by
  induction m with
  | nil => simp [jget, jset]
  | cons kv rest ih =>
    obtain ⟨k₀, v₀⟩ := kv
    by_cases h : k₀ = k
    · subst h; simp [jget, jset]
    · simp [jget, jset, h, ih]

theorem jget_jset_ne {k k' : κ} (h : k' ≠ k) (v : β) (m : List (κ × β)) :
    jget k (jset k' v m) = jget k m := by
  induction m with
  | nil => simp [jget, jset, h]
  | cons kv rest ih =>
    obtain ⟨k₀, v₀⟩ := kv
    by_cases h0 : k₀ = k'
    · subst h0; simp [jget, jset, h]
    · by_cases hk : k₀ = k
      · subst hk; simp [jget, jset, h0]
      · simp [jget, jset, h0, hk, ih]

theorem jget_isSome_iff_mem_keys (k : κ) (m : List (κ × β)) :
    (jget k m).isSome = true ↔ k ∈ m.map Prod.fst := by
  induction m with
  | nil => simp [jget]
  | cons kv rest ih =>
    obtain ⟨k₀, v₀⟩ := kv
    by_cases h : k₀ = k
    · subst h; simp [jget]
    · simp [jget, h, ih, Ne.symm h]

theorem jset_keys_of_mem {k : κ} {m : List (κ × β)} (h : k ∈ m.map Prod.fst) (v : β) :
    (jset k v m).map Prod.fst = m.map Prod.fst := by
  induction m with
  | nil => simp at h
  | cons kv rest ih =>
    obtain ⟨k₀, v₀⟩ := kv
    by_cases h0 : k₀ = k
    · subst h0; simp [jset]
    · rw [List.map_cons] at h
      have hr : k ∈ rest.map Prod.fst := by
        rcases List.mem_cons.1 h with h1 | h1
        · exact absurd h1.symm h0
        · exact h1
      simp [jset, h0, ih hr]

theorem jset_keys_of_not_mem {k : κ} {m : List (κ × β)} (h : k ∉ m.map Prod.fst) (v : β) :
    (jset k v m).map Prod.fst = m.map Prod.fst ++ [k] := by
  induction m with
  | nil => simp [jset]
  | cons kv rest ih =>
    obtain ⟨k₀, v₀⟩ := kv
    have h0 : k₀ ≠ k := by rintro rfl; simp at h
    have h1 : k ∉ rest.map Prod.fst := fun hm => h (by simp [hm])
    simp [jset, h0, ih h1]

theorem jset_keys_nodup {k : κ} (v : β) {m : List (κ × β)} (h : (m.map Prod.fst).Nodup) :
    ((jset k v m).map Prod.fst).Nodup := by
  by_cases hm : k ∈ m.map Prod.fst
  · rw [jset_keys_of_mem hm]; exact h
  · rw [jset_keys_of_not_mem hm]
    simp [List.nodup_append, h, hm]

theorem jget_mem {k : κ} {v : β} {m : List (κ × β)} (h : jget k m = some v) : (k, v) ∈ m := by
  induction m with
  | nil => simp [jget] at h
  | cons kv rest ih =>
    obtain ⟨k₀, v₀⟩ := kv
    by_cases h0 : k₀ = k
    · subst h0
      simp [jget] at h
      simp [h]
    · simp [jget, h0] at h
      exact List.mem_cons_of_mem _ (ih h)

theorem mem_jget {k : κ} {v : β} {m : List (κ × β)} (hnd : (m.map Prod.fst).Nodup)
    (h : (k, v) ∈ m) : jget k m = some v := by
  induction m with
  | nil => simp at h
  | cons kv rest ih =>
    obtain ⟨k₀, v₀⟩ := kv
    rw [List.map_cons] at hnd
    have hnd' := List.nodup_cons.1 hnd
    rcases List.mem_cons.1 h with h1 | h1
    · injection h1 with he1 he2
      subst he1; subst he2
      simp [jget]
    · have hk : k₀ ≠ k := by
        rintro rfl
        exact hnd'.1 (by simpa using List.mem_map_of_mem Prod.fst h1)
      simp [jget, hk]
      exact ih hnd'.2 h1

theorem mem_jset {k : κ} {v : β} {m : List (κ × β)} {x : κ × β} (hx : x ∈ jset k v m) :
    x = (k, v) ∨ x ∈ m := by
  induction m with
  | nil =>
    simp [jset] at hx
    exact Or.inl hx
  | cons kv rest ih =>
    obtain ⟨k₀, v₀⟩ := kv
    by_cases h0 : k₀ = k
    · subst h0
      simp only [jset, if_pos rfl] at hx
      rcases List.mem_cons.1 hx with h1 | h1
      · exact Or.inl h1
      · exact Or.inr (List.mem_cons_of_mem _ h1)
    · simp only [jset, if_neg h0] at hx
      rcases List.mem_cons.1 hx with h1 | h1
      · exact Or.inr (by simp [h1])
      · rcases ih h1 with h2 | h2
        · exact Or.inl h2
        · exact Or.inr (List.mem_cons_of_mem _ h2)

end MapLemmas

/-! ### C2: the `searchProduct` guard versus the readiness definition -/

/-- C2 counterexample: the claim ties the synchronous guard of
`searchProduct` to readiness (lat, long and UDID all non-null).  The code
guards on `lat`, `long` and `pro_discount` instead: `exReadyNoDiscount` is
ready yet the call throws ContextNotInitialized, and `exNoUdid` is not
ready yet the call proceeds to build the network request. -/
theorem searchProduct_guard_mismatches_readiness :
    (isSearchContextInitialized exReadyNoDiscount = true ∧
      searchProduct exReadyNoDiscount "milk" none none none 0 =
        .error .contextNotInitialized) ∧
    (isSearchContextInitialized exNoUdid = false ∧
      (searchProduct exNoUdid "milk" none none none 0).isOk = true) :=
  ⟨⟨rfl, rfl⟩, ⟨rfl, rfl⟩⟩

/-- C2 (amended): with no caller-supplied overrides, `searchProduct` fails
fast with its ContextNotInitialized error, before the network request is
formed, exactly when one of the context's `lat`, `long`, `pro_discount` is
falsy (null or empty string); the UDID plays no role in the guard.  When
the guard passes the request is built and the network is attempted. -/
theorem searchProduct_guard_characterization (c : SearchContextState) (q : String) (page : Nat) :
    (searchProduct c q none none none page = .error .contextNotInitialized ↔
      ¬(truthy c.lat = true ∧ truthy c.long = true ∧ truthy c.pro_discount = true)) ∧
    (truthy c.lat = true ∧ truthy c.long = true ∧ truthy c.pro_discount = true →
      searchProduct c q none none none page = .ok
        { query := q, lat := c.lat, long := c.long, pro_client := c.pro_client,
          pro_discount := c.pro_discount, page := page, client := c.client,
          deviceType := c.deviceType, appVersion := c.appVersion, UDID := c.UDID }) := by
  have e1 : searchProduct c q none none none page =
      (if !truthy c.lat || !truthy c.long || !truthy c.pro_discount then
        Except.error SearchFailure.contextNotInitialized
      else Except.ok
        { query := q, lat := c.lat, long := c.long, pro_client := c.pro_client,
          pro_discount := c.pro_discount, page := page, client := c.client,
          deviceType := c.deviceType, appVersion := c.appVersion, UDID := c.UDID }) := rfl
  rw [e1]
  by_cases hl : truthy c.lat <;> by_cases hg : truthy c.long <;>
    by_cases hd : truthy c.pro_discount <;> simp [hl, hg, hd]

/-- Witness for C2: on the fully captured context the guard passes and the
request carries the context's parameters. -/
theorem searchProduct_guard_characterization_witness :
    searchProduct exFullContext "milk" none none none 0 = .ok
      { query := "milk", lat := exFullContext.lat, long := exFullContext.long,
        pro_client := exFullContext.pro_client, pro_discount := exFullContext.pro_discount,
        page := 0, client := exFullContext.client, deviceType := exFullContext.deviceType,
        appVersion := exFullContext.appVersion, UDID := exFullContext.UDID } :=
  (searchProduct_guard_characterization exFullContext "milk" 0).2 ⟨rfl, rfl, rfl⟩

/-! ### C3: any query failure fails the whole intersection -/

/-- C3: if any one of the fanned-out queries fails (either error kind), the
whole computation fails with the single failure that names exactly the
product names whose query failed; no partial vendor list is returned. -/
theorem any_failure_fails_whole_search (search : Search) (productNames : List String)
    (n : String) (hn : n ∈ productNames) (hfail : (search n).isOk = false) :
    ∃ fs, findVendorsWithAllProducts search productNames =
        .error (.searchFailure fs) ∧
      ∀ m, m ∈ fs ↔ m ∈ productNames ∧ (search m).isOk = false := by
  have hne : ¬ productNames.length = 0 := by
    intro h0
    rw [List.length_eq_zero] at h0
    subst h0
    simp at hn
  refine ⟨productNames.filter (fun x => !(search x).isOk), ?_, ?_⟩
  · have hmem : n ∈ productNames.filter (fun x => !(search x).isOk) :=
      List.mem_filter.2 ⟨hn, by simp [hfail]⟩
    have hnotempty : (productNames.filter (fun x => !(search x).isOk)).isEmpty = false := by
      rcases hl : (productNames.filter (fun x => !(search x).isOk)) with _ | ⟨a, l⟩
      · rw [hl] at hmem; simp at hmem
      · rfl
    simp [findVendorsWithAllProducts, hne, hnotempty]
  · intro m
    rw [List.mem_filter]
    simp

/-- Witness for C3: with the milk/bread fixture and one unknown name, the
engine fails naming exactly the unknown name. -/
theorem any_failure_fails_whole_search_witness :
    ∃ fs, findVendorsWithAllProducts exSearchAll ["milk", "missing"] =
        .error (.searchFailure fs) ∧
      ∀ m, m ∈ fs ↔ m ∈ ["milk", "missing"] ∧ (exSearchAll m).isOk = false :=
  any_failure_fails_whole_search exSearchAll ["milk", "missing"] "missing"
    (by decide) (by decide)

/-! ### C4: invalid input is rejected before the network -/

/-- C4: the FIND_STORES_FOR_LIST handler rejects a null/empty product list
with its invalid-list error, and a list whose names are all
blank/whitespace-only with its no-valid-products error.  In both cases the
response is the same for every network oracle, i.e. the request never
reaches the network layer. -/
theorem invalid_input_rejected_before_network :
    (∀ (c : SearchContextState) (search : Search),
      handleFindStoresForList c search (some []) = .invalidList ∧
      handleFindStoresForList c search none = .invalidList) ∧
    (∀ (c : SearchContextState) (search : Search) (items : List String),
      items ≠ [] → (∀ s ∈ items, jsTrim s = "") →
      handleFindStoresForList c search (some items) = .noValidProducts) := by
  constructor
  · intro c search
    exact ⟨rfl, rfl⟩
  · intro c search items hne hblank
    have hlen : ¬ items.length = 0 := by
      intro h0
      rw [List.length_eq_zero] at h0
      exact hne h0
    have hfilter : items.filter (fun s => !(s == "") && decide (0 < (jsTrim s).length)) = [] := by
      rw [List.filter_eq_nil_iff]
      intro s hs
      by_cases h0 : s = ""
      · simp [h0]
      · simp [h0, hblank s hs]
    simp [handleFindStoresForList, hlen, hfilter]

/-- Witness for C4: concrete empty and all-blank inputs are rejected. -/
theorem invalid_input_rejected_before_network_witness :
    handleFindStoresForList initialSearchContext exSearchAll (some []) = .invalidList ∧
    handleFindStoresForList initialSearchContext exSearchAll (some [" ", ""]) = .noValidProducts :=
  ⟨(invalid_input_rejected_before_network.1 initialSearchContext exSearchAll).1,
    invalid_input_rejected_before_network.2 initialSearchContext exSearchAll [" ", ""]
      (by decide) (by decide)⟩

/-! ### C7 and C8: the search-context merge and the readiness gate -/

theorem mergeField_of_unchanged {p c : Option String} (h : p.isSome = false ∨ c = p) :
    mergeField p c = c := by
  cases p with
  | none => rfl
  | some v =>
    rcases h with h | h
    · simp at h
    · rw [h]; exact rfl

theorem updateSearchContext_eq_merge (c : SearchContextState) (p : CapturePayload) :
    updateSearchContext c p = mergeContext c p := by
  unfold updateSearchContext
  by_cases h : hasChanges c p = true
  · rw [if_pos h]
  · rw [if_neg h]
    have h' : hasChanges c p = false := by
      cases hv : hasChanges c p
      · rfl
      · exact absurd hv h
    unfold hasChanges at h'
    simp only [Bool.or_eq_false_iff, Bool.and_eq_false_iff, bne_eq_false_iff_eq] at h'
    obtain ⟨⟨⟨⟨⟨⟨⟨h1, h2⟩, h3⟩, h4⟩, h5⟩, h6⟩, h7⟩, h8⟩ := h'
    cases c with
    | mk cl cg cpd cpc cc cdt cav cu =>
      simp only [mergeContext, SearchContextState.mk.injEq]
      refine ⟨?_, ?_, ?_, ?_, ?_, ?_, ?_, ?_⟩
      · exact (mergeField_of_unchanged h1).symm
      · exact (mergeField_of_unchanged h2).symm
      · exact (mergeField_of_unchanged h4).symm
      · exact (mergeField_of_unchanged h5).symm
      · exact (mergeField_of_unchanged h6).symm
      · exact (mergeField_of_unchanged h7).symm
      · exact (mergeField_of_unchanged h8).symm
      · exact (mergeField_of_unchanged h3).symm

/-- C7: the SEARCH_CONTEXT merge is non-destructive per field: a null (or
absent) captured field leaves the previous context value untouched, and a
non-null captured field overwrites it. -/
theorem context_merge_non_destructive (c : SearchContextState) (p : CapturePayload) :
    ((p.lat = none → (updateSearchContext c p).lat = c.lat) ∧
      ∀ v, p.lat = some v → (updateSearchContext c p).lat = some v) ∧
    ((p.long = none → (updateSearchContext c p).long = c.long) ∧
      ∀ v, p.long = some v → (updateSearchContext c p).long = some v) ∧
    ((p.pro_discount = none → (updateSearchContext c p).pro_discount = c.pro_discount) ∧
      ∀ v, p.pro_discount = some v → (updateSearchContext c p).pro_discount = some v) ∧
    ((p.pro_client = none → (updateSearchContext c p).pro_client = c.pro_client) ∧
      ∀ v, p.pro_client = some v → (updateSearchContext c p).pro_client = some v) ∧
    ((p.client = none → (updateSearchContext c p).client = c.client) ∧
      ∀ v, p.client = some v → (updateSearchContext c p).client = some v) ∧
    ((p.deviceType = none → (updateSearchContext c p).deviceType = c.deviceType) ∧
      ∀ v, p.deviceType = some v → (updateSearchContext c p).deviceType = some v) ∧
    ((p.appVersion = none → (updateSearchContext c p).appVersion = c.appVersion) ∧
      ∀ v, p.appVersion = some v → (updateSearchContext c p).appVersion = some v) ∧
    ((p.UDID = none → (updateSearchContext c p).UDID = c.UDID) ∧
      ∀ v, p.UDID = some v → (updateSearchContext c p).UDID = some v) := by
  rw [updateSearchContext_eq_merge]
  refine ⟨⟨?_, ?_⟩, ⟨?_, ?_⟩, ⟨?_, ?_⟩, ⟨?_, ?_⟩, ⟨?_, ?_⟩, ⟨?_, ?_⟩, ⟨?_, ?_⟩, ⟨?_, ?_⟩⟩ <;>
    intros <;> simp [mergeContext, mergeField, *]

/-- Witness for C7: a UDID-only capture keeps the latitude and overwrites
the UDID. -/
theorem context_merge_non_destructive_witness :
    (updateSearchContext exFullContext exUdidCapture).lat = exFullContext.lat ∧
    (updateSearchContext exFullContext exUdidCapture).UDID = some "u9" :=
  ⟨(context_merge_non_destructive exFullContext exUdidCapture).1.1 rfl,
    (context_merge_non_destructive exFullContext exUdidCapture).2.2.2.2.2.2.2.2 "u9" rfl⟩

theorem mergeField_isSome {p c : Option String} (h : c.isSome = true) :
    (mergeField p c).isSome = true := by
  cases p
  · exact h
  · rfl

theorem isInit_mono_step (c : SearchContextState) (p : CapturePayload)
    (h : isSearchContextInitialized c = true) :
    isSearchContextInitialized (updateSearchContext c p) = true := by
  rw [updateSearchContext_eq_merge]
  simp only [isSearchContextInitialized, Bool.and_eq_true] at h ⊢
  exact ⟨⟨mergeField_isSome h.1.1, mergeField_isSome h.1.2⟩, mergeField_isSome h.2⟩

theorem applyCaptures_cons (c : SearchContextState) (p : CapturePayload)
    (ps : List CapturePayload) :
    applyCaptures c (p :: ps) = applyCaptures (updateSearchContext c p) ps := rfl

theorem isInit_mono_list (c : SearchContextState) (ps : List CapturePayload)
    (h : isSearchContextInitialized c = true) :
    isSearchContextInitialized (applyCaptures c ps) = true := by
  induction ps generalizing c with
  | nil => exact h
  | cons p ps ih => exact ih _ (isInit_mono_step c p h)

theorem applyCaptures_field_none
    (f : SearchContextState → Option String) (g : CapturePayload → Option String)
    (hstep : ∀ c p, g p = none → f (updateSearchContext c p) = f c)
    (ps : List CapturePayload) (c : SearchContextState)
    (hall : ∀ p ∈ ps, g p = none) (hc : f c = none) :
    f (applyCaptures c ps) = none := by
  induction ps generalizing c with
  | nil => exact hc
  | cons p ps ih =>
    rw [applyCaptures_cons]
    refine ih _ (fun q hq => hall q (List.mem_cons_of_mem _ hq)) ?_
    rw [hstep c p (hall p (List.mem_cons_self p ps))]
    exact hc

theorem update_lat_of_none (c : SearchContextState) (p : CapturePayload) (h : p.lat = none) :
    (updateSearchContext c p).lat = c.lat := by
  rw [updateSearchContext_eq_merge]
  show mergeField p.lat c.lat = c.lat
  rw [h]; exact rfl

theorem update_long_of_none (c : SearchContextState) (p : CapturePayload) (h : p.long = none) :
    (updateSearchContext c p).long = c.long := by
  rw [updateSearchContext_eq_merge]
  show mergeField p.long c.long = c.long
  rw [h]; exact rfl

theorem update_UDID_of_none (c : SearchContextState) (p : CapturePayload) (h : p.UDID = none) :
    (updateSearchContext c p).UDID = c.UDID := by
  rw [updateSearchContext_eq_merge]
  show mergeField p.UDID c.UDID = c.UDID
  rw [h]; exact rfl

/-- C8: the readiness gate is monotonic.  Starting from the initial (empty)
context it returns false as long as one of lat/long/UDID has never been
captured non-null; and once the gate is true, no sequence of further
context updates can make it false again. -/
theorem readiness_gate_monotonic :
    (∀ ps : List CapturePayload,
      ((∀ p ∈ ps, p.lat = none) ∨ (∀ p ∈ ps, p.long = none) ∨ (∀ p ∈ ps, p.UDID = none)) →
      isSearchContextInitialized (applyCaptures initialSearchContext ps) = false) ∧
    (∀ (c : SearchContextState) (ps : List CapturePayload),
      isSearchContextInitialized c = true →
      isSearchContextInitialized (applyCaptures c ps) = true) := by
  constructor
  · intro ps h
    rcases h with h | h | h
    · have hn := applyCaptures_field_none (fun s => s.lat) (fun p => p.lat)
        update_lat_of_none ps initialSearchContext h rfl
      simp [isSearchContextInitialized, hn]
    · have hn := applyCaptures_field_none (fun s => s.long) (fun p => p.long)
        update_long_of_none ps initialSearchContext h rfl
      simp [isSearchContextInitialized, hn]
    · have hn := applyCaptures_field_none (fun s => s.UDID) (fun p => p.UDID)
        update_UDID_of_none ps initialSearchContext h rfl
      simp [isSearchContextInitialized, hn]
  · intro c ps h
    exact isInit_mono_list c ps h

/-- Witness for C8: a geolocation-only history leaves the gate false, and a
ready context stays ready across further captures. -/
theorem readiness_gate_monotonic_witness :
    isSearchContextInitialized (applyCaptures initialSearchContext [exGeoCapture]) = false ∧
    isSearchContextInitialized (applyCaptures exFullContext [exGeoCapture, exUdidCapture]) = true :=
  ⟨readiness_gate_monotonic.1 [exGeoCapture] (Or.inr (Or.inr (by decide))),
    readiness_gate_monotonic.2 exFullContext [exGeoCapture, exUdidCapture] rfl⟩

/-! ### C5 and C10: the delivery-fee ordering -/

theorem feeLe_total (a b : Option Int) : feeLe a b = true ∨ feeLe b a = true := by
  cases a <;> cases b <;> simp [feeLe]
  omega

theorem feeLe_trans {a b c : Option Int} (h1 : feeLe a b = true) (h2 : feeLe b c = true) :
    feeLe a c = true := by
  cases a <;> cases b <;> cases c <;> simp_all [feeLe]
  all_goals omega

instance : IsTotal ResultVendor feeRel :=
  ⟨fun a b => feeLe_total a.deliveryFee b.deliveryFee⟩

instance : IsTrans ResultVendor feeRel :=
  ⟨fun _ _ _ h1 h2 => feeLe_trans h1 h2⟩

theorem sortVendors_sorted (l : List ResultVendor) : (sortVendors l).Sorted feeRel :=
  List.sorted_insertionSort feeRel l

/-- Unfolding equation of the engine (`let` bindings zeta-reduced). -/
theorem find_eq (search : Search) (productNames : List String) :
    findVendorsWithAllProducts search productNames =
      if productNames.length = 0 then .ok []
      else if (productNames.filter (fun n => !(search n).isOk)).isEmpty then
        .ok (sortVendors (resultRows search productNames))
      else .error (.searchFailure (productNames.filter (fun n => !(search n).isOk))) := rfl

/-- Every successful engine result is the stable fee-sort of the discovered
rows. -/
theorem find_ok_eq_sort {search : Search} {productNames : List String} {l : List ResultVendor}
    (h : findVendorsWithAllProducts search productNames = .ok l) :
    l = sortVendors (resultRows search productNames) := by
  rw [find_eq] at h
  split at h
  · next h0 =>
    injection h with h
    subst h
    rw [List.length_eq_zero] at h0
    subst h0
    rfl
  · next _ =>
    split at h
    · injection h with h
      exact h.symm
    · exact Except.noConfusion h

theorem sorted_known_ascending {l : List ResultVendor} (hs : l.Sorted feeRel)
    (i j : Fin l.length) (fa fb : Int)
    (hi : (l.get i).deliveryFee = some fa) (hj : (l.get j).deliveryFee = some fb)
    (hlt : fa < fb) : (i : Nat) < (j : Nat) := by
  rcases lt_trichotomy (i : Nat) (j : Nat) with h | h | h
  · exact h
  · exfalso
    have hij : l.get i = l.get j := by
      congr 1
      exact Fin.ext h
    rw [hij, hj] at hi
    injection hi with hi
    omega
  · exfalso
    have hr := hs.rel_get_of_lt (Fin.lt_def.2 h)
    unfold feeRel at hr
    rw [hi, hj] at hr
    simp [feeLe] at hr
    omega

theorem sorted_unknown_last {l : List ResultVendor} (hs : l.Sorted feeRel)
    (i j : Fin l.length) (f : Int)
    (hi : (l.get i).deliveryFee = none) (hj : (l.get j).deliveryFee = some f) :
    (j : Nat) < (i : Nat) := by
  rcases lt_trichotomy (j : Nat) (i : Nat) with h | h | h
  · exact h
  · exfalso
    have hij : l.get i = l.get j := by
      congr 1
      exact Fin.ext h.symm
    rw [hij, hj] at hi
    exact Option.noConfusion hi
  · exfalso
    have hr := hs.rel_get_of_lt (Fin.lt_def.2 h)
    unfold feeRel at hr
    rw [hi, hj] at hr
    simp [feeLe] at hr

theorem filter_unknown_orderedInsert_known (a : ResultVendor) (l : List ResultVendor)
    (ha : isUnknownFee a = false) :
    (l.orderedInsert feeRel a).filter isUnknownFee = l.filter isUnknownFee := by
  induction l with
  | nil => simp [List.orderedInsert, List.filter_cons, ha]
  | cons b l ih =>
    rw [List.orderedInsert]
    by_cases h : feeRel a b
    · rw [if_pos h]
      simp [List.filter_cons, ha]
    · rw [if_neg h]
      simp [List.filter_cons, ih]

theorem filter_unknown_orderedInsert_unknown (a : ResultVendor) (l : List ResultVendor)
    (ha : isUnknownFee a = true) :
    (l.orderedInsert feeRel a).filter isUnknownFee = a :: l.filter isUnknownFee := by
  have haf : a.deliveryFee = none := by
    unfold isUnknownFee at ha
    exact Option.isNone_iff_eq_none.1 ha
  induction l with
  | nil => simp [List.orderedInsert, List.filter_cons, ha]
  | cons b l ih =>
    rw [List.orderedInsert]
    by_cases h : feeRel a b
    · rw [if_pos h]
      simp [List.filter_cons, ha]
    · rw [if_neg h]
      have hb : isUnknownFee b = false := by
        unfold isUnknownFee
        cases hbf : b.deliveryFee with
        | none =>
          exfalso
          apply h
          unfold feeRel
          rw [haf, hbf]
          rfl
        | some x => rfl
      simp [List.filter_cons, hb, ih]

/-- Stability of the fee sort on the unknown-fee rows. -/
theorem filter_unknown_sortVendors (l : List ResultVendor) :
    (sortVendors l).filter isUnknownFee = l.filter isUnknownFee := by
  unfold sortVendors
  induction l with
  | nil => rfl
  | cons a l ih =>
    rw [List.insertionSort]
    cases ha : isUnknownFee a
    · rw [filter_unknown_orderedInsert_known a _ ha, ih]
      simp [List.filter_cons, ha]
    · rw [filter_unknown_orderedInsert_unknown a _ ha, ih]
      simp [List.filter_cons, ha]

/-- C5: every successful result list is sorted ascending by delivery fee
(strictly cheaper known fees come strictly earlier); every unknown-fee
vendor follows every known-fee vendor; and the unknown-fee vendors keep
their aggregation-discovery relative order (stable sort). -/
theorem result_sorted_by_delivery_fee (search : Search) (productNames : List String)
    (l : List ResultVendor)
    (h : findVendorsWithAllProducts search productNames = .ok l) :
    (∀ (i j : Fin l.length) (fa fb : Int),
      (l.get i).deliveryFee = some fa → (l.get j).deliveryFee = some fb →
      fa < fb → (i : Nat) < (j : Nat)) ∧
    (∀ (i j : Fin l.length) (f : Int),
      (l.get i).deliveryFee = none → (l.get j).deliveryFee = some f →
      (j : Nat) < (i : Nat)) ∧
    l.filter isUnknownFee = (resultRows search productNames).filter isUnknownFee := by
  have hl := find_ok_eq_sort h
  subst hl
  refine ⟨?_, ?_, ?_⟩
  · intro i j fa fb hi hj hlt
    exact sorted_known_ascending (sortVendors_sorted _) i j fa fb hi hj hlt
  · intro i j f hi hj
    exact sorted_unknown_last (sortVendors_sorted _) i j f hi hj
  · exact filter_unknown_sortVendors _

/-- Witness for C5: the concrete fee fixture keeps its two unknown-fee rows
in discovery order. -/
theorem result_sorted_by_delivery_fee_witness :
    exFeesOut.filter isUnknownFee = (resultRows exSearchFees ["a"]).filter isUnknownFee :=
  (result_sorted_by_delivery_fee exSearchFees ["a"] exFeesOut rfl).2.2

/-- C10: a selected vendor whose raw delivery fee is 0 (or whose rating is
0) is emitted with null for that field, because the copy uses the falsy
coalescing `|| null`; consequently a zero-fee vendor counts as having no
known fee and is placed after every vendor with a positive fee. -/
theorem zero_fee_and_rating_collapse_to_null :
    (∀ (productNames : List String) (e : AggEntry),
      e.vendor.deliveryFee = some 0 → (mkResultVendor productNames e).deliveryFee = none) ∧
    (∀ (productNames : List String) (e : AggEntry),
      e.vendor.rating = some 0 → (mkResultVendor productNames e).rating = none) ∧
    (∀ (search : Search) (productNames : List String) (l : List ResultVendor),
      findVendorsWithAllProducts search productNames = .ok l →
      ∀ (i j : Fin l.length) (f : Int),
        (l.get i).deliveryFee = none → (l.get j).deliveryFee = some f → 0 < f →
        (j : Nat) < (i : Nat)) := by
  refine ⟨?_, ?_, ?_⟩
  · intro ns e he
    show numOrNull e.vendor.deliveryFee = none
    rw [he]
    rfl
  · intro ns e he
    show numOrNull e.vendor.rating = none
    rw [he]
    rfl
  · intro search ns l h i j f hi hj _
    have hl := find_ok_eq_sort h
    subst hl
    exact sorted_unknown_last (sortVendors_sorted _) i j f hi hj

/-- Witness for C10: the zero-fee, zero-rating vendor is emitted with null
fee and rating, and in the fee fixture the zero-fee vendor (index 2) comes
after the fee-2 vendor (index 0). -/
theorem zero_fee_and_rating_collapse_to_null_witness :
    (mkResultVendor ["a"] exZeroRatingEntry).deliveryFee = none ∧
    (mkResultVendor ["a"] exZeroRatingEntry).rating = none ∧
    (0 : Nat) < (2 : Nat) :=
  ⟨zero_fee_and_rating_collapse_to_null.1 ["a"] exZeroRatingEntry rfl,
    zero_fee_and_rating_collapse_to_null.2.1 ["a"] exZeroRatingEntry rfl,
    zero_fee_and_rating_collapse_to_null.2.2 exSearchFees ["a"] exFeesOut rfl
      ⟨2, by decide⟩ ⟨0, by decide⟩ 2 (by decide) (by decide) (by decide)⟩

/-! ### C1: membership in the intersection -/

/-- C1 counterexample: vendor 1 appears in the bread response with an empty
matched-products list, so the claim says it must be excluded; the code
includes it (its slot count still reaches N), returning it with a null
matched product for bread. -/
theorem vendor_with_empty_products_included :
    (∃ v ∈ okVendors exSearchEmptyProducts "bread", v.id = 1 ∧ v.products = some []) ∧
    findVendorsWithAllProducts exSearchEmptyProducts ["milk", "bread"] =
      .ok exEmptyProductsOut ∧
    (∃ v ∈ exEmptyProductsOut, v.vendorId = 1) := by
  refine ⟨by decide, rfl, by decide⟩

/-! ### Aggregation lemmas: what `vendorMap` holds after the fold -/

theorem jget_addVendor_ne {q : String} {m : VendorMap} {v : VendorRec} {i : Nat}
    (h : v.id ≠ i) : jget i (addVendor q m v) = jget i m := by
  unfold addVendor
  cases hv : jget v.id m <;> simp only [hv] <;> exact jget_jset_ne h _ _

theorem jget_addVendor_hit_some {q : String} {m : VendorMap} {v : VendorRec} {e : AggEntry}
    (hv : jget v.id m = some e) :
    jget v.id (addVendor q m v) =
      some { e with slots := jset q (firstMatchedProduct v) e.slots } := by
  unfold addVendor
  rw [hv]
  exact jget_jset_self _ _ _

theorem jget_addVendor_hit_none {q : String} {m : VendorMap} {v : VendorRec}
    (hv : jget v.id m = none) :
    jget v.id (addVendor q m v) =
      some { vendor := v, slots := jset q (firstMatchedProduct v) [] } := by
  unfold addVendor
  rw [hv]
  exact jget_jset_self _ _ _

theorem addQuery_cons (m : VendorMap) (q : String) (v : VendorRec) (vs : List VendorRec) :
    addQuery m q (v :: vs) = addQuery (addVendor q m v) q vs := rfl

theorem jget_addVendor_isSome_self (q : String) (m : VendorMap) (v : VendorRec) :
    (jget v.id (addVendor q m v)).isSome = true := by
  cases hv : jget v.id m
  · rw [jget_addVendor_hit_none hv]
    rfl
  · rw [jget_addVendor_hit_some hv]
    rfl

theorem jget_addQuery_isSome (q : String) (vs : List VendorRec) (m : VendorMap) (i : Nat) :
    (jget i (addQuery m q vs)).isSome = ((jget i m).isSome || appearsIn vs i) := by
  induction vs generalizing m with
  | nil => simp [addQuery, appearsIn]
  | cons v vs ih =>
    rw [addQuery_cons, ih]
    by_cases hvi : v.id = i
    · subst hvi
      rw [jget_addVendor_isSome_self]
      simp [appearsIn]
    · rw [jget_addVendor_ne hvi]
      have hb : (v.id == i) = false := beq_eq_false_iff_ne.2 hvi
      simp [appearsIn, hb]

theorem oldSlot_addVendor_ne {q : String} {m : VendorMap} {v : VendorRec} {i : Nat}
    (h : v.id ≠ i) (q' : String) :
    oldSlot (addVendor q m v) i q' = oldSlot m i q' := by
  unfold oldSlot
  rw [jget_addVendor_ne h]

theorem oldSlot_addVendor_self (q : String) (m : VendorMap) (v : VendorRec) (q' : String) :
    oldSlot (addVendor q m v) v.id q' = (if q' = q then true else oldSlot m v.id q') := by
  unfold oldSlot
  cases hv : jget v.id m with
  | some e =>
    rw [jget_addVendor_hit_some hv]
    by_cases hq : q' = q
    · subst hq
      simp [jget_jset_self]
    · rw [if_neg hq]
      simp only [jget_jset_ne (fun he => hq he.symm)]
  | none =>
    rw [jget_addVendor_hit_none hv]
    by_cases hq : q' = q
    · subst hq
      simp [jget_jset_self]
    · rw [if_neg hq]
      simp only [jget_jset_ne (fun he => hq he.symm)]
      simp [jget]

theorem oldSlot_addQuery (q : String) (vs : List VendorRec) (m : VendorMap) (i : Nat)
    (q' : String) :
    oldSlot (addQuery m q vs) i q' = ((q' == q) && appearsIn vs i || oldSlot m i q') := by
  induction vs generalizing m with
  | nil => simp [addQuery, appearsIn]
  | cons v vs ih =>
    rw [addQuery_cons, ih]
    by_cases hvi : v.id = i
    · subst hvi
      rw [oldSlot_addVendor_self]
      by_cases hq : q' = q
      · subst hq
        cases hA : appearsIn (v :: vs) v.id <;> simp_all [appearsIn]
      · have hb : (q' == q) = false := beq_eq_false_iff_ne.2 hq
        simp [hq, hb, appearsIn]
    · rw [oldSlot_addVendor_ne hvi]
      have hb : (v.id == i) = false := beq_eq_false_iff_ne.2 hvi
      simp [appearsIn, hb]

theorem aggregate_append (search : Search) (ns : List String) (n : String) :
    aggregate search (ns ++ [n]) =
      addQuery (aggregate search ns) n (okVendors search n) := by
  unfold aggregate
  rw [List.foldl_append]
  rfl

theorem jget_aggregate_isSome (search : Search) (ns : List String) (i : Nat) :
    (jget i (aggregate search ns)).isSome =
      ns.any (fun n => appearsIn (okVendors search n) i) := by
  induction ns using List.reverseRecOn with
  | nil => rfl
  | append_singleton ns n ih =>
    rw [aggregate_append, jget_addQuery_isSome, ih]
    simp [List.any_append]

theorem oldSlot_aggregate (search : Search) (ns : List String) (i : Nat) (q : String) :
    oldSlot (aggregate search ns) i q = true ↔
      (q ∈ ns ∧ appearsIn (okVendors search q) i = true) := by
  induction ns using List.reverseRecOn with
  | nil => simp [aggregate, oldSlot, jget]
  | append_singleton ns n ih =>
    rw [aggregate_append, oldSlot_addQuery]
    simp only [Bool.or_eq_true, Bool.and_eq_true, beq_iff_eq, ih]
    constructor
    · rintro (⟨rfl, hA⟩ | ⟨hmem, hA⟩)
      · exact ⟨by simp, hA⟩
      · exact ⟨by simp [hmem], hA⟩
    · rintro ⟨hmem, hA⟩
      rcases List.mem_append.1 hmem with hm | hm
      · exact Or.inr ⟨hm, hA⟩
      · have hm' : q = n := by simpa using hm
        subst hm'
        exact Or.inl ⟨rfl, hA⟩

theorem mapInv_addVendor (q : String) (v : VendorRec) {m : VendorMap} (h : MapInv m) :
    MapInv (addVendor q m v) := by
  obtain ⟨hk, he⟩ := h
  unfold addVendor
  cases hv : jget v.id m with
  | some e =>
    refine ⟨jset_keys_nodup _ hk, ?_⟩
    intro p hp
    rcases mem_jset hp with h1 | h1
    · subst h1
      have h2 := he (v.id, e) (jget_mem hv)
      exact ⟨h2.1, jset_keys_nodup _ h2.2⟩
    · exact he p h1
  | none =>
    refine ⟨jset_keys_nodup _ hk, ?_⟩
    intro p hp
    rcases mem_jset hp with h1 | h1
    · subst h1
      exact ⟨rfl, jset_keys_nodup _ (by simp)⟩
    · exact he p h1

theorem mapInv_addQuery (q : String) (vs : List VendorRec) {m : VendorMap} (h : MapInv m) :
    MapInv (addQuery m q vs) := by
  induction vs generalizing m with
  | nil => exact h
  | cons v vs ih => exact ih (mapInv_addVendor q v h)

theorem mapInv_aggregate (search : Search) (ns : List String) :
    MapInv (aggregate search ns) := by
  induction ns using List.reverseRecOn with
  | nil => exact ⟨List.nodup_nil, by intro p hp; simp [aggregate] at hp⟩
  | append_singleton ns n ih =>
    rw [aggregate_append]
    exact mapInv_addQuery _ _ ih

/-- The slot count of an aggregated vendor is the number of distinct
requested names under which the vendor appeared. -/
theorem slots_length_eq (search : Search) (ns : List String) (i : Nat) (e : AggEntry)
    (he : jget i (aggregate search ns) = some e) :
    e.slots.length =
      (ns.dedup.filter (fun q => appearsIn (okVendors search q) i)).length := by
  have hkeys_nodup : (e.slots.map Prod.fst).Nodup :=
    ((mapInv_aggregate search ns).2 (i, e) (jget_mem he)).2
  have hmem : ∀ q, q ∈ e.slots.map Prod.fst ↔
      (q ∈ ns ∧ appearsIn (okVendors search q) i = true) := by
    intro q
    rw [← jget_isSome_iff_mem_keys]
    have hsl : oldSlot (aggregate search ns) i q = (jget q e.slots).isSome := by
      unfold oldSlot
      rw [he]
    rw [show (jget q e.slots).isSome = oldSlot (aggregate search ns) i q from hsl.symm]
    exact oldSlot_aggregate search ns i q
  have hfil_nodup : (ns.dedup.filter (fun q => appearsIn (okVendors search q) i)).Nodup :=
    (List.nodup_dedup ns).filter _
  have hfil_mem : ∀ q,
      q ∈ ns.dedup.filter (fun q => appearsIn (okVendors search q) i) ↔
      (q ∈ ns ∧ appearsIn (okVendors search q) i = true) := by
    intro q
    rw [List.mem_filter, List.mem_dedup]
  have hfin : (e.slots.map Prod.fst).toFinset =
      (ns.dedup.filter (fun q => appearsIn (okVendors search q) i)).toFinset := by
    ext q
    rw [List.mem_toFinset, List.mem_toFinset, hmem q, hfil_mem q]
  calc e.slots.length
      = (e.slots.map Prod.fst).length := (List.length_map _ _).symm
    _ = (e.slots.map Prod.fst).toFinset.card := (List.toFinset_card_of_nodup hkeys_nodup).symm
    _ = (ns.dedup.filter (fun q => appearsIn (okVendors search q) i)).toFinset.card := by
        rw [hfin]
    _ = (ns.dedup.filter (fun q => appearsIn (okVendors search q) i)).length :=
        List.toFinset_card_of_nodup hfil_nodup

/-- With distinct requested names, a vendor's slot count reaches N exactly
when the vendor appeared under every requested name. -/
theorem slots_length_eq_iff_all (search : Search) (ns : List String) (hnd : ns.Nodup)
    (i : Nat) (e : AggEntry) (he : jget i (aggregate search ns) = some e) :
    e.slots.length = ns.length ↔ ∀ n ∈ ns, appearsIn (okVendors search n) i = true := by
  rw [slots_length_eq search ns i e he, List.Nodup.dedup hnd]
  constructor
  · intro hlen n hn
    have hsub : List.Sublist (ns.filter (fun q => appearsIn (okVendors search q) i)) ns :=
      List.filter_sublist ns
    have heq := hsub.eq_of_length hlen
    exact List.filter_eq_self.1 heq n hn
  · intro hall
    rw [List.filter_eq_self.2 hall]

/-- A vendor id occurs among the selected rows iff its aggregated entry
exists and its slot count equals the requested-name count. -/
theorem mem_resultRows_iff (search : Search) (ns : List String) (i : Nat) :
    (∃ v ∈ resultRows search ns, v.vendorId = i) ↔
      (∃ e, jget i (aggregate search ns) = some e ∧ e.slots.length = ns.length) := by
  unfold resultRows
  constructor
  · rintro ⟨v, hv, hvid⟩
    rw [List.mem_map] at hv
    obtain ⟨p, hp, hmk⟩ := hv
    rw [List.mem_filter] at hp
    obtain ⟨hpm, hcrit⟩ := hp
    have hinv := (mapInv_aggregate search ns).2 p hpm
    have hp1 : p.1 = i := by
      rw [← hvid, ← hmk]
      exact hinv.1.symm
    refine ⟨p.2, ?_, ?_⟩
    · rw [← hp1]
      exact mem_jget (mapInv_aggregate search ns).1 (by rw [Prod.mk.eta]; exact hpm)
    · have hcrit' : p.2.slots.length = ns.length := by simpa using hcrit
      exact hcrit'
  · rintro ⟨e, he, hlen⟩
    refine ⟨mkResultVendor ns e, ?_, ?_⟩
    · rw [List.mem_map]
      refine ⟨(i, e), ?_, rfl⟩
      rw [List.mem_filter]
      exact ⟨jget_mem he, by simp [hlen]⟩
    · exact ((mapInv_aggregate search ns).2 (i, e) (jget_mem he)).1

/-- C1 (amended): with distinct names and all queries succeeding, a vendor
appears in the result iff it appeared in every one of the per-name query
responses — regardless of whether it had any matched product for a query.
A vendor whose products list for some query is empty is still included
(its slot is filled with an absence marker), contrary to the original
claim; see `vendor_with_empty_products_included`. -/
theorem vendor_included_iff_in_every_response (search : Search) (productNames : List String)
    (hne : productNames ≠ []) (hnd : productNames.Nodup)
    (hok : ∀ n ∈ productNames, (search n).isOk = true) :
    ∃ l, findVendorsWithAllProducts search productNames = .ok l ∧
      ∀ i : Nat, (∃ v ∈ l, v.vendorId = i) ↔
        ∀ n ∈ productNames, appearsIn (okVendors search n) i = true := by
  have hlen : ¬ productNames.length = 0 := by
    intro h0
    rw [List.length_eq_zero] at h0
    exact hne h0
  have hfail : (productNames.filter (fun n => !(search n).isOk)).isEmpty = true := by
    rw [List.isEmpty_iff, List.filter_eq_nil_iff]
    intro n hn
    simp [hok n hn]
  refine ⟨sortVendors (resultRows search productNames), ?_, ?_⟩
  · rw [find_eq, if_neg hlen, if_pos hfail]
  · intro i
    have hperm : ∀ v : ResultVendor,
        v ∈ sortVendors (resultRows search productNames) ↔
        v ∈ resultRows search productNames := by
      intro v
      unfold sortVendors
      exact List.mem_insertionSort feeRel
    have hstep : (∃ v ∈ sortVendors (resultRows search productNames), v.vendorId = i) ↔
        (∃ v ∈ resultRows search productNames, v.vendorId = i) := by
      constructor
      · rintro ⟨v, hv, h⟩
        exact ⟨v, (hperm v).1 hv, h⟩
      · rintro ⟨v, hv, h⟩
        exact ⟨v, (hperm v).2 hv, h⟩
    rw [hstep, mem_resultRows_iff]
    constructor
    · rintro ⟨e, he, hlen'⟩
      exact (slots_length_eq_iff_all search productNames hnd i e he).1 hlen'
    · intro hall
      obtain ⟨n₀, hn₀⟩ := List.exists_mem_of_ne_nil productNames hne
      have hpres : (jget i (aggregate search productNames)).isSome = true := by
        rw [jget_aggregate_isSome, List.any_eq_true]
        exact ⟨n₀, hn₀, hall n₀ hn₀⟩
      obtain ⟨e, he⟩ := Option.isSome_iff_exists.1 hpres
      exact ⟨e, he, (slots_length_eq_iff_all search productNames hnd i e he).2 hall⟩

/-- Witness for C1: on the milk/bread fixture, the characterization applies
with all hypotheses discharged. -/
theorem vendor_included_iff_in_every_response_witness :
    ∃ l, findVendorsWithAllProducts exSearchAll ["milk", "bread"] = .ok l ∧
      ∀ i : Nat, (∃ v ∈ l, v.vendorId = i) ↔
        ∀ n ∈ ["milk", "bread"], appearsIn (okVendors exSearchAll n) i = true :=
  vendor_included_iff_in_every_response exSearchAll ["milk", "bread"]
    (by decide) (by decide) (by decide)

/-! ### C6: matchedProducts is full and in caller order -/

/-- C6: for every non-empty blank-free product-name list whose queries all
succeed, the engine terminates with a result whose every entry carries one
`matchedProducts` entry per requested name, in the caller's order. -/
theorem matchedProducts_in_caller_order (search : Search) (productNames : List String)
    (hne : productNames ≠ [])
    (_hblank : ∀ n ∈ productNames, jsTrim n ≠ "")
    (hok : ∀ n ∈ productNames, (search n).isOk = true) :
    ∃ l, findVendorsWithAllProducts search productNames = .ok l ∧
      ∀ v ∈ l, v.matchedProducts.map (fun mp => mp.name) = productNames ∧
        v.matchedProducts.length = productNames.length := by
  have hlen : ¬ productNames.length = 0 := by
    intro h0
    rw [List.length_eq_zero] at h0
    exact hne h0
  have hfail : (productNames.filter (fun n => !(search n).isOk)).isEmpty = true := by
    rw [List.isEmpty_iff, List.filter_eq_nil_iff]
    intro n hn
    simp [hok n hn]
  refine ⟨sortVendors (resultRows search productNames), ?_, ?_⟩
  · rw [find_eq, if_neg hlen, if_pos hfail]
  · intro v hv
    have hv' : v ∈ resultRows search productNames := by
      unfold sortVendors at hv
      rw [List.mem_insertionSort] at hv
      exact hv
    unfold resultRows at hv'
    rw [List.mem_map] at hv'
    obtain ⟨p, _, hmk⟩ := hv'
    subst hmk
    constructor
    · have hmp : (mkResultVendor productNames p.2).matchedProducts =
          productNames.map
            (fun n => ({ name := n, product := (jget n p.2.slots).join } : MatchedEntry)) := rfl
      rw [hmp, List.map_map]
      exact List.map_id'' (fun n => rfl) productNames
    · exact List.length_map _ _

/-- Witness for C6: the milk/bread fixture satisfies all hypotheses. -/
theorem matchedProducts_in_caller_order_witness :
    ∃ l, findVendorsWithAllProducts exSearchAll ["milk", "bread"] = .ok l ∧
      ∀ v ∈ l, v.matchedProducts.map (fun mp => mp.name) = ["milk", "bread"] ∧
        v.matchedProducts.length = (["milk", "bread"] : List String).length :=
  matchedProducts_in_caller_order exSearchAll ["milk", "bread"]
    (by decide) (by decide) (by decide)

/-! ### C9: duplicate names empty the result -/

/-- C9: a product-name list that repeats a name can never be fully covered,
because the per-vendor slots are keyed by name while the membership test
compares the slot count against the list length counting duplicates; with
all queries succeeding the engine returns the empty list. -/
theorem duplicate_names_yield_empty (search : Search) (productNames : List String)
    (hdup : ¬ productNames.Nodup)
    (hok : ∀ n ∈ productNames, (search n).isOk = true) :
    findVendorsWithAllProducts search productNames = .ok [] := by
  have hne : productNames ≠ [] := by
    rintro rfl
    exact hdup List.nodup_nil
  have hlen : ¬ productNames.length = 0 := by
    intro h0
    rw [List.length_eq_zero] at h0
    exact hne h0
  have hfail : (productNames.filter (fun n => !(search n).isOk)).isEmpty = true := by
    rw [List.isEmpty_iff, List.filter_eq_nil_iff]
    intro n hn
    simp [hok n hn]
  rw [find_eq, if_neg hlen, if_pos hfail]
  have hrows : resultRows search productNames = [] := by
    unfold resultRows
    rw [List.map_eq_nil_iff, List.filter_eq_nil_iff]
    intro p hp
    have hget : jget p.1 (aggregate search productNames) = some p.2 :=
      mem_jget (mapInv_aggregate search productNames).1 (by rw [Prod.mk.eta]; exact hp)
    have hlen' := slots_length_eq search productNames p.1 p.2 hget
    have h1 : (productNames.dedup.filter
        (fun q => appearsIn (okVendors search q) p.1)).length ≤ productNames.dedup.length :=
      List.length_filter_le _ _
    have h2 : productNames.dedup.length < productNames.length := by
      have hsub : List.Sublist productNames.dedup productNames := List.dedup_sublist _
      rcases lt_or_eq_of_le hsub.length_le with h | h
      · exact h
      · exfalso
        exact hdup ((hsub.eq_of_length h) ▸ List.nodup_dedup productNames)
    simp only [beq_iff_eq]
    rw [hlen']
    omega
  rw [hrows]
  rfl

/-- Witness for C9: a duplicated name over the milk/bread fixture returns
the empty list even though every query succeeds. -/
theorem duplicate_names_yield_empty_witness :
    findVendorsWithAllProducts exSearchAll ["milk", "milk"] = .ok [] :=
  duplicate_names_yield_empty exSearchAll ["milk", "milk"] (by decide) (by decide)

end SnappBasket
